import Mathlib

/-!
Verification of the build-and-solve pipeline of gprMax
(src/gprMax/model_build_run.py) against its natural-language
specification.  The per-iteration behaviour of the two solver loops
(solve_cpu, lines 363-416, and solve_gpu, lines 419-563) is embedded as
the list of update events one iteration performs; the stepped
source/receiver repositioning of run_model (lines 277-293) is embedded
as an Except-valued function over an explicit grid record.
-/

/-- The kinds of logical sources the grid holds
(model_build_run.py uses the lists G.voltagesources, G.hertziandipoles,
G.magneticdipoles, G.transmissionlines). -/
inductive SourceKind where
  | voltage
  | hertzian
  | magneticdipole
  | transmissionline
deriving DecidableEq, Repr, Fintype

/-- One observable action of a solver-loop iteration.  Each constructor
names the call the CPU loop (solve_cpu) or the GPU loop (solve_gpu)
makes at that point:
storeOutputs is store_outputs / store_outputs_gpu, writeSnapshot is
snap.write_vtk_imagedata, updateMagnetic is update_magnetic / update_h_gpu,
pmlUpdateMagnetic is pml.update_magnetic / pml.gpu_update_magnetic,
srcUpdateMagnetic k is source.update_magnetic for a source of kind k,
updateElectric is update_electric / update_e_gpu,
updateElectricDispA onepole is the phase-A dispersive electric update
(onepole true for update_electric_dispersive_1pole_A, false for the
multipole kernel), pmlUpdateElectric is pml.update_electric /
pml.gpu_update_electric, srcUpdateElectric k is source.update_electric
for a source of kind k, and updateElectricDispB onepole is the phase-B
dispersive update. -/
inductive Event where
  | storeOutputs
  | writeSnapshot
  | updateMagnetic
  | pmlUpdateMagnetic
  | srcUpdateMagnetic (k : SourceKind)
  | updateElectric
  | updateElectricDispA (onepole : Bool)
  | pmlUpdateElectric
  | srcUpdateElectric (k : SourceKind)
  | updateElectricDispB (onepole : Bool)
deriving DecidableEq, Repr, Fintype

/-- The data of one model that the solver loops read: counts of the
source/receiver lists, the number of PML regions (G.pmls), the maximum
dispersive pole count (Material.maxpoles) and the scheduled snapshot
times (snap.time for snap in G.snapshots). -/
structure SolverModel where
  iterations : Nat
  maxpoles : Nat
  npmls : Nat
  nvoltage : Nat
  nhertzian : Nat
  nmagnetic : Nat
  ntransmission : Nat
  nrxs : Nat
  snapshottimes : List Nat
deriving DecidableEq, Repr

/-- The events of one iteration of solve_cpu (model_build_run.py lines
363-412), in the order the loop body performs them:
store_outputs; snapshots whose time is iteration+1; update_magnetic;
pml.update_magnetic per PML; source.update_magnetic for every
transmission line then every magnetic dipole (the loop ranges over
G.transmissionlines + G.magneticdipoles); the electric update chosen by
Material.maxpoles (standard, 1pole_A, or multipole_A);
pml.update_electric per PML; source.update_electric for every voltage
source, then every transmission line, then every Hertzian dipole (the
loop ranges over G.voltagesources + G.transmissionlines +
G.hertziandipoles); and finally the phase-B dispersive update when
maxpoles is nonzero. -/
def cpuIterationEvents (m : SolverModel) (iteration : Nat) : List Event :=
  [Event.storeOutputs]
  ++ ((m.snapshottimes.filter (fun t => t = iteration + 1)).map
        (fun _ => Event.writeSnapshot)
  ++ ([Event.updateMagnetic]
  ++ (List.replicate m.npmls Event.pmlUpdateMagnetic
  ++ (List.replicate m.ntransmission (Event.srcUpdateMagnetic SourceKind.transmissionline)
  ++ (List.replicate m.nmagnetic (Event.srcUpdateMagnetic SourceKind.magneticdipole)
  ++ ((if m.maxpoles = 0 then [Event.updateElectric]
       else if m.maxpoles = 1 then [Event.updateElectricDispA true]
       else [Event.updateElectricDispA false])
  ++ (List.replicate m.npmls Event.pmlUpdateElectric
  ++ (List.replicate m.nvoltage (Event.srcUpdateElectric SourceKind.voltage)
  ++ (List.replicate m.ntransmission (Event.srcUpdateElectric SourceKind.transmissionline)
  ++ (List.replicate m.nhertzian (Event.srcUpdateElectric SourceKind.hertzian)
  ++ (if m.maxpoles = 0 then ([] : List Event)
      else if m.maxpoles = 1 then [Event.updateElectricDispB true]
      else [Event.updateElectricDispB false])))))))))))

/-- The events of one iteration of solve_gpu (model_build_run.py lines
512-549), in the order the loop body performs them:
store_outputs_gpu only when G.rxs is nonempty; update_h_gpu;
pml.gpu_update_magnetic per PML; the magnetic-dipole kernel only when
G.magneticdipoles is nonempty (the launch covers all
len(G.magneticdipoles) sources, one update per source); the electric
update chosen by Material.maxpoles (update_e_gpu or the multipole
phase-A kernel - the GPU path has no dedicated single-pole kernel);
pml.gpu_update_electric per PML; the voltage-source kernel when
G.voltagesources is nonempty; the Hertzian-dipole kernel when
G.hertziandipoles is nonempty; the phase-B multipole kernel when
maxpoles is nonzero.  The loop contains no transmission-line update and
no snapshot writing. -/
def gpuIterationEvents (m : SolverModel) (_iteration : Nat) : List Event :=
  (if m.nrxs = 0 then ([] : List Event) else [Event.storeOutputs])
  ++ ([Event.updateMagnetic]
  ++ (List.replicate m.npmls Event.pmlUpdateMagnetic
  ++ ((if m.nmagnetic = 0 then ([] : List Event)
       else List.replicate m.nmagnetic (Event.srcUpdateMagnetic SourceKind.magneticdipole))
  ++ ((if m.maxpoles = 0 then [Event.updateElectric]
       else [Event.updateElectricDispA false])
  ++ (List.replicate m.npmls Event.pmlUpdateElectric
  ++ ((if m.nvoltage = 0 then ([] : List Event)
       else List.replicate m.nvoltage (Event.srcUpdateElectric SourceKind.voltage))
  ++ ((if m.nhertzian = 0 then ([] : List Event)
       else List.replicate m.nhertzian (Event.srcUpdateElectric SourceKind.hertzian))
  ++ (if m.maxpoles = 0 then ([] : List Event)
      else [Event.updateElectricDispB false]))))))))

/-- All events of a full CPU solve: the iterations in order
(solve_cpu iterates `for iteration in range(G.iterations)`). -/
def cpuSolveEvents (m : SolverModel) : List Event :=
  (List.range m.iterations).flatMap (fun it => cpuIterationEvents m it)

/-- The position of an event kind in the fixed order a loop iteration
follows; used to state ordering facts about the iteration event lists. -/
def phase : Event → Nat
  | Event.storeOutputs => 0
  | Event.writeSnapshot => 1
  | Event.updateMagnetic => 2
  | Event.pmlUpdateMagnetic => 3
  | Event.srcUpdateMagnetic _ => 4
  | Event.updateElectric => 5
  | Event.updateElectricDispA _ => 5
  | Event.pmlUpdateElectric => 6
  | Event.srcUpdateElectric SourceKind.hertzian => 8
  | Event.srcUpdateElectric _ => 7
  | Event.updateElectricDispB _ => 9

/-- A list of events whose phases never decrease. -/
def phaseSorted (l : List Event) : Prop :=
  List.Pairwise (fun a b => phase a ≤ phase b) l

/-- Every event satisfying p occurs strictly earlier in the list than
every event satisfying q. -/
def eventsPrecede (p q : Event → Bool) (l : List Event) : Prop :=
  ∀ i j : Fin l.length, p (l.get i) = true → q (l.get j) = true → (i : Nat) < (j : Nat)

/-- A per-iteration source update of either field half-step. -/
def isSourceUpdate : Event → Bool
  | Event.srcUpdateMagnetic _ => true
  | Event.srcUpdateElectric _ => true
  | _ => false

/-- The main electric-field update (standard or dispersive phase A) or
the PML electric correction. -/
def isPreElectricUpdate : Event → Bool
  | Event.updateElectric => true
  | Event.updateElectricDispA _ => true
  | Event.pmlUpdateElectric => true
  | _ => false

/-- An electric-type source update. -/
def isElectricSourceUpdate : Event → Bool
  | Event.srcUpdateElectric _ => true
  | _ => false

/-- The Hertzian-dipole electric update. -/
def isHertzianElectricUpdate : Event → Bool
  | Event.srcUpdateElectric SourceKind.hertzian => true
  | _ => false

/-- An electric-type source update other than a Hertzian dipole
(voltage source or transmission line). -/
def isOtherElectricSourceUpdate : Event → Bool
  | Event.srcUpdateElectric SourceKind.voltage => true
  | Event.srcUpdateElectric SourceKind.transmissionline => true
  | _ => false

/-- Any field-state mutation of an iteration: every event except
receiver sampling and snapshot serialization. -/
def isFieldOrSourceUpdate : Event → Bool
  | Event.storeOutputs => false
  | Event.writeSnapshot => false
  | _ => true

/-- A simple source or receiver as run_model manipulates it: current
grid coordinates plus the origin coordinates they are recomputed from
(model_build_run.py lines 283-285 and 291-293). -/
structure SrcRx where
  xcoord : Int
  ycoord : Int
  zcoord : Int
  xcoordorigin : Int
  ycoordorigin : Int
  zcoordorigin : Int
deriving DecidableEq, Repr

/-- A per-run step vector (G.srcsteps or G.rxsteps). -/
structure Steps where
  x : Int
  y : Int
  z : Int
deriving DecidableEq, Repr

/-- The part of the FDTDGrid instance that the repositioning block of
run_model (lines 277-293) reads and writes: the grid extents, the two
step vectors, and the source and receiver lists. -/
structure FDTDGrid where
  nx : Int
  ny : Int
  nz : Int
  srcsteps : Steps
  rxsteps : Steps
  hertziandipoles : List SrcRx
  magneticdipoles : List SrcRx
  voltagesources : List SrcRx
  transmissionlines : List SrcRx
  rxs : List SrcRx
deriving DecidableEq, Repr

/-- Coordinates lie inside the grid bounds on every axis. -/
def positionInBounds (nx ny nz : Int) (s : SrcRx) : Prop :=
  0 ≤ s.xcoord ∧ s.xcoord ≤ nx ∧ 0 ≤ s.ycoord ∧ s.ycoord ≤ ny ∧
  0 ≤ s.zcoord ∧ s.zcoord ≤ nz

instance (nx ny nz : Int) (s : SrcRx) : Decidable (positionInBounds nx ny nz s) := by
  unfold positionInBounds; infer_instance

/-- The first-run bound check of run_model (lines 281 and 289): the
current coordinate plus steps times modelend falls outside the grid on
some axis. -/
def steppedOutOfDomain (nx ny nz : Int) (steps : Steps) (modelend : Int) (s : SrcRx) : Prop :=
  s.xcoord + steps.x * modelend < 0 ∨ s.xcoord + steps.x * modelend > nx ∨
  s.ycoord + steps.y * modelend < 0 ∨ s.ycoord + steps.y * modelend > ny ∨
  s.zcoord + steps.z * modelend < 0 ∨ s.zcoord + steps.z * modelend > nz

instance (nx ny nz : Int) (steps : Steps) (modelend : Int) (s : SrcRx) :
    Decidable (steppedOutOfDomain nx ny nz steps modelend s) := by
  unfold steppedOutOfDomain; infer_instance

/-- The coordinate assignment of run_model (lines 283-285, 291-293):
each current coordinate becomes origin + (currentmodelrun - 1) * step. -/
def stepPosition (currentmodelrun : Int) (steps : Steps) (s : SrcRx) : SrcRx :=
  { s with xcoord := s.xcoordorigin + (currentmodelrun - 1) * steps.x,
           ycoord := s.ycoordorigin + (currentmodelrun - 1) * steps.y,
           zcoord := s.zcoordorigin + (currentmodelrun - 1) * steps.z }

/-- The body of the repositioning loop over one list: on the first run
a source stepped out of the domain raises GeneralError with message
msg; otherwise every element is repositioned by stepPosition. -/
def adjustList (nx ny nz currentmodelrun modelend : Int) (steps : Steps) (msg : String) :
    List SrcRx → Except String (List SrcRx)
  | [] => Except.ok []
  | s :: rest =>
    if currentmodelrun = 1 ∧ steppedOutOfDomain nx ny nz steps modelend s then
      Except.error msg
    else
      Except.map (fun rest2 => stepPosition currentmodelrun steps s :: rest2)
        (adjustList nx ny nz currentmodelrun modelend steps msg rest)

/-- Message of the fatal error for stepped sources (line 282). -/
def srcStepErrMsg : String :=
  "Sources will be stepped to a position outside the domain."

/-- Message of the fatal error for stepped receivers (line 290). -/
def rxStepErrMsg : String :=
  "Receivers will be stepped to a position outside the domain."

/-- Lines 278-285: when some axis of G.srcsteps is nonzero, reposition
every Hertzian dipole and magnetic dipole (the loop chains exactly the
lists G.hertziandipoles and G.magneticdipoles), validating against the
grid bounds on the first run. -/
def adjustSourcesPhase (currentmodelrun modelend : Int) (g : FDTDGrid) :
    Except String FDTDGrid :=
  if g.srcsteps.x ≠ 0 ∨ g.srcsteps.y ≠ 0 ∨ g.srcsteps.z ≠ 0 then
    match adjustList g.nx g.ny g.nz currentmodelrun modelend g.srcsteps srcStepErrMsg
        g.hertziandipoles with
    | Except.error msg => Except.error msg
    | Except.ok hs =>
      match adjustList g.nx g.ny g.nz currentmodelrun modelend g.srcsteps srcStepErrMsg
          g.magneticdipoles with
      | Except.error msg => Except.error msg
      | Except.ok ms => Except.ok { g with hertziandipoles := hs, magneticdipoles := ms }
  else Except.ok g

/-- Lines 286-293: when some axis of G.rxsteps is nonzero, reposition
every receiver, validating against the grid bounds on the first run. -/
def adjustReceiversPhase (currentmodelrun modelend : Int) (g : FDTDGrid) :
    Except String FDTDGrid :=
  if g.rxsteps.x ≠ 0 ∨ g.rxsteps.y ≠ 0 ∨ g.rxsteps.z ≠ 0 then
    match adjustList g.nx g.ny g.nz currentmodelrun modelend g.rxsteps rxStepErrMsg g.rxs with
    | Except.error msg => Except.error msg
    | Except.ok rs => Except.ok { g with rxs := rs }
  else Except.ok g

/-- The whole repositioning block of run_model (lines 277-293):
sources first, then receivers. -/
def adjustPositions (currentmodelrun modelend : Int) (g : FDTDGrid) :
    Except String FDTDGrid :=
  match adjustSourcesPhase currentmodelrun modelend g with
  | Except.error msg => Except.error msg
  | Except.ok g1 => adjustReceiversPhase currentmodelrun modelend g1

/-- run_model from the repositioning block to the solve call (lines
277-330): a raised GeneralError aborts before the solver runs, so an
error result carries no solver events at all. -/
def runModelSolve (currentmodelrun modelend : Int) (g : FDTDGrid) (m : SolverModel) :
    Except String (FDTDGrid × List Event) :=
  match adjustPositions currentmodelrun modelend g with
  | Except.error msg => Except.error msg
  | Except.ok g2 => Except.ok (g2, cpuSolveEvents m)

/-- A GPU descriptor as run_model and solve_gpu read it (G.gpu). -/
structure GPUSpec where
  totalmem : Nat
  constmem : Nat
deriving DecidableEq, Repr

/-- What the dispersive admission check of run_model reads (lines
228-242): the maximum pole count, the memory estimate of
memory_usage(G), the detected host RAM and the selected GPU, if any. -/
structure BuildConfig where
  maxpoles : Nat
  memestimate : Nat
  hostram : Nat
  gpu : Option GPUSpec
deriving DecidableEq, Repr

/-- Observable allocation action of the dispersive build step. -/
inductive BuildEvent where
  | allocDispersiveArrays
deriving DecidableEq, Repr

/-- Lines 228-242 of run_model: when Material.maxpoles is nonzero,
the memory estimate is checked against host RAM, then - when a GPU is
selected - against the GPU total memory, and only then
G.initialise_dispersive_arrays() allocates the Tx, Ty, Tz arrays.
The returned list holds the allocation events performed before the
result; a raised GeneralError performs none. -/
def dispersiveAdmission (c : BuildConfig) : List BuildEvent × Except String Unit :=
  if c.maxpoles ≠ 0 then
    if c.memestimate > c.hostram then
      ([], Except.error "Estimated memory RAM required exceeds detected host RAM")
    else
      c.gpu.elim ([BuildEvent.allocDispersiveArrays], Except.ok ())
        (fun gpu =>
          if c.memestimate > gpu.totalmem then
            ([], Except.error "Estimated memory RAM required exceeds detected GPU memory")
          else ([BuildEvent.allocDispersiveArrays], Except.ok ()))
  else ([], Except.ok ())

/-- Observable actions of the GPU solver preamble and loop. -/
inductive GPUEvent where
  | compileKernels
  | copyCoeffsToDevice
  | kernelLaunch
deriving DecidableEq, Repr

/-- What the constant-memory admission check of solve_gpu reads (lines
447-454): the byte sizes of the two update-coefficient tables and the
GPU constant-memory budget, plus the iteration count for the loop. -/
structure GPUSolveConfig where
  updatecoeffsEnbytes : Nat
  updatecoeffsHnbytes : Nat
  constmem : Nat
  iterations : Nat
deriving DecidableEq, Repr

/-- solve_gpu as a trace of coarse events (lines 439-549): the field
kernels are compiled (SourceModule, lines 441-443); then the combined
size of the electric and magnetic coefficient tables is checked against
the constant-memory budget (line 450) - a failure raises GeneralError
with nothing copied to the device and no kernel launched; on success
the tables are copied (memcpy_htod, lines 453-454) and the iteration
loop launches kernels. -/
def solveGpuTrace (c : GPUSolveConfig) : List GPUEvent × Except String Unit :=
  if c.updatecoeffsEnbytes + c.updatecoeffsHnbytes > c.constmem then
    ([GPUEvent.compileKernels],
     Except.error "Too many materials in the model to fit onto constant memory of the GPU")
  else
    ([GPUEvent.compileKernels] ++ [GPUEvent.copyCoeffsToDevice, GPUEvent.copyCoeffsToDevice]
       ++ List.replicate c.iterations GPUEvent.kernelLaunch,
     Except.ok ())

/-- A PML region as the reuse branch touches it: the auxiliary field
arrays that pml.initialise_field_arrays rezeroes and the coefficient
arrays it leaves alone. -/
structure PMLRegion where
  fieldArrays : List Int
  coeffArrays : List Int
deriving DecidableEq, Repr

/-- Modelled from the spec: pml.initialise_field_arrays (pml.py is not
under src/) rezeroes the auxiliary field arrays of the region; the
specification states that on reuse only the auxiliary field arrays are
rezeroed and coefficients are not recomputed. -/
def PMLRegion.initialiseFieldArrays (p : PMLRegion) : PMLRegion :=
  { p with fieldArrays := List.replicate p.fieldArrays.length 0 }

/-- The grid state the geometry-reuse branch of run_model can touch:
the six main field arrays (flattened), the cell-edge ID array, the
material list, the two update-coefficient tables and the PML regions. -/
structure GridArrays where
  fieldArrays : List Int
  ID : List Nat
  materials : List String
  updatecoeffsE : List Int
  updatecoeffsH : List Int
  pmls : List PMLRegion
deriving DecidableEq, Repr

/-- Modelled from the spec: G.initialise_field_arrays (grid.py is not
under src/) rezeroes the six main field arrays and touches nothing
else; the specification states only field and PML auxiliary arrays are
reset between runs. -/
def GridArrays.initialiseFieldArrays (g : GridArrays) : GridArrays :=
  { g with fieldArrays := List.replicate g.fieldArrays.length 0 }

/-- The geometry-reuse branch of run_model (lines 265-275): clear the
main field arrays, then clear the field arrays of every PML; nothing
else of the grid is touched. -/
def reuseGeometryBranch (g : GridArrays) : GridArrays :=
  let g1 := g.initialiseFieldArrays
  { g1 with pmls := g1.pmls.map PMLRegion.initialiseFieldArrays }

/-- Modelled from the spec: the per-pole update coefficients of one
dispersive pole (the dispersive kernels of fields_updates_ext are not
under src/; section 4.5 step 6 of the specification describes the
two-phase dispersive electric update). -/
structure PoleCoeff where
  a : Int
  b : Int
deriving DecidableEq, Repr

/-- Modelled from the spec: the dispersive update coefficients of one
field component for the multi-pole path - the field self-coefficient,
the curl coefficient, the accumulator feedback coefficient, and one
PoleCoeff per pole. -/
structure DispCoeffs where
  ce : Int
  ch : Int
  cq : Int
  poles : List PoleCoeff
deriving DecidableEq, Repr

/-- Modelled from the spec: the same coefficients for the dedicated
single-pole path, with exactly one pole and no per-pole list. -/
structure DispCoeffs1 where
  ce : Int
  ch : Int
  cq : Int
  pa : Int
  pb : Int
deriving DecidableEq, Repr

/-- Modelled from the spec: phase A of the multi-pole dispersive
update of one field component - the portion not requiring the new E
value: E is advanced from its own value, the curl input and the sum
over all pole accumulators, and each accumulator is advanced from the
present E. -/
def multipoleA (c : DispCoeffs) (h : Int) (e : Int) (t : List Int) : Int × List Int :=
  (c.ce * e + c.ch * h - c.cq * t.sum,
   List.zipWith (fun p tp => p.a * tp + p.b * e) c.poles t)

/-- Modelled from the spec: phase B of the multi-pole dispersive
update - run after the PML and source corrections, it finalises E from
the accumulator sum and the already-updated E, and commits the
accumulators against the new E. -/
def multipoleB (c : DispCoeffs) (e : Int) (t : List Int) : Int × List Int :=
  (e - c.cq * (List.zipWith (fun p tp => tp - p.b * e) c.poles t).sum,
   List.zipWith (fun p tp => tp - p.b * e) c.poles t)

/-- Modelled from the spec: phase A of the dedicated single-pole path,
the same formulas written for one accumulator with no per-pole loop. -/
def onepoleA (c : DispCoeffs1) (h : Int) (e : Int) (t : Int) : Int × Int :=
  (c.ce * e + c.ch * h - c.cq * t, c.pa * t + c.pb * e)

/-- Modelled from the spec: phase B of the dedicated single-pole path. -/
def onepoleB (c : DispCoeffs1) (e : Int) (t : Int) : Int × Int :=
  (e - c.cq * (t - c.pb * e), t - c.pb * e)

/-- One solver iteration of the multi-pole electric update of one field
component: phase A, then an external correction of E standing for the
PML and source updates of that iteration, then phase B. -/
def multipoleStep (c : DispCoeffs) (h corr : Int) (s : Int × List Int) : Int × List Int :=
  let sa := multipoleA c h s.1 s.2
  multipoleB c (sa.1 + corr) sa.2

/-- One solver iteration of the single-pole electric update. -/
def onepoleStep (c : DispCoeffs1) (h corr : Int) (s : Int × Int) : Int × Int :=
  let sa := onepoleA c h s.1 s.2
  onepoleB c (sa.1 + corr) sa.2

/-- The multi-pole field trajectory over n iterations, with per-
iteration curl inputs hs and corrections corrs. -/
def multipoleTraj (c : DispCoeffs) (hs corrs : Nat → Int) : Nat → Int × List Int → Int × List Int
  | 0, s => s
  | n + 1, s => multipoleStep c (hs n) (corrs n) (multipoleTraj c hs corrs n s)

/-- The single-pole field trajectory over n iterations. -/
def onepoleTraj (c : DispCoeffs1) (hs corrs : Nat → Int) : Nat → Int × Int → Int × Int
  | 0, s => s
  | n + 1, s => onepoleStep c (hs n) (corrs n) (onepoleTraj c hs corrs n s)

/-- The multi-pole coefficient table a single-pole material gives. -/
def coeffsOfOne (c : DispCoeffs1) : DispCoeffs :=
  { ce := c.ce, ch := c.ch, cq := c.cq, poles := [{ a := c.pa, b := c.pb }] }

/-- A model with one transmission line, one Hertzian dipole and one
receiver: the concrete input separating the CPU and GPU loop bodies. -/
def tlModel : SolverModel :=
  { iterations := 10, maxpoles := 0, npmls := 0, nvoltage := 0, nhertzian := 1,
    nmagnetic := 0, ntransmission := 1, nrxs := 1, snapshottimes := [] }

/-- A transmission-line-free model with every other source kind
present, used to instantiate the backend-agreement theorem. -/
def plainModel : SolverModel :=
  { iterations := 5, maxpoles := 0, npmls := 1, nvoltage := 1, nhertzian := 2,
    nmagnetic := 1, ntransmission := 0, nrxs := 1, snapshottimes := [] }

/-- A single in-bounds Hertzian dipole at x=1 of a 10-cell grid. -/
def cexSource : SrcRx :=
  { xcoord := 1, ycoord := 5, zcoord := 5,
    xcoordorigin := 1, ycoordorigin := 5, zcoordorigin := 5 }

/-- The concrete grid of the C2 counterexample: one Hertzian dipole at
x=1, per-run source step (2,0,0), grid extent 10.  Over 5 runs the
dipole visits x = 1,3,5,7,9, all inside the domain, but run_model
checks 1 + 2*5 = 11 > 10 and raises. -/
def cexGrid : FDTDGrid :=
  { nx := 10, ny := 10, nz := 10,
    srcsteps := { x := 2, y := 0, z := 0 }, rxsteps := { x := 0, y := 0, z := 0 },
    hertziandipoles := [cexSource], magneticdipoles := [], voltagesources := [],
    transmissionlines := [], rxs := [] }

/-- The witness grid for the amended C2: one Hertzian dipole at x=0
stepped by (3,0,0); by the final run 5 it would sit at x=12, outside
the 10-cell domain. -/
def oobGrid : FDTDGrid :=
  { nx := 10, ny := 10, nz := 10,
    srcsteps := { x := 3, y := 0, z := 0 }, rxsteps := { x := 0, y := 0, z := 0 },
    hertziandipoles :=
      [{ xcoord := 0, ycoord := 5, zcoord := 5,
         xcoordorigin := 0, ycoordorigin := 5, zcoordorigin := 5 }],
    magneticdipoles := [], voltagesources := [], transmissionlines := [], rxs := [] }

/-- The witness grid for C3: stepped source and receiver that stay in
bounds over 3 runs. -/
def stepGrid : FDTDGrid :=
  { nx := 20, ny := 20, nz := 20,
    srcsteps := { x := 1, y := 0, z := 0 }, rxsteps := { x := 0, y := 2, z := 0 },
    hertziandipoles :=
      [{ xcoord := 2, ycoord := 3, zcoord := 4,
         xcoordorigin := 2, ycoordorigin := 3, zcoordorigin := 4 }],
    magneticdipoles := [],
    voltagesources := [], transmissionlines := [],
    rxs := [{ xcoord := 5, ycoord := 6, zcoord := 7,
              xcoordorigin := 5, ycoordorigin := 6, zcoordorigin := 7 }] }

/-- stepGrid after the adjustment of run 2. -/
def stepGridRun2 : FDTDGrid :=
  { stepGrid with
    hertziandipoles :=
      [{ xcoord := 3, ycoord := 3, zcoord := 4,
         xcoordorigin := 2, ycoordorigin := 3, zcoordorigin := 4 }],
    rxs := [{ xcoord := 5, ycoord := 8, zcoord := 7,
              xcoordorigin := 5, ycoordorigin := 6, zcoordorigin := 7 }] }

/-- A dispersive build whose estimate exceeds the host RAM. -/
def overRamConfig : BuildConfig :=
  { maxpoles := 2, memestimate := 4000, hostram := 1000, gpu := none }

/-- A GPU solve whose coefficient tables overflow constant memory. -/
def overConstConfig : GPUSolveConfig :=
  { updatecoeffsEnbytes := 40000, updatecoeffsHnbytes := 40000,
    constmem := 65536, iterations := 7 }

theorem const_nil {c : Nat} : ∀ e ∈ ([] : List Event), phase e = c := by
  intro e he
  cases he

theorem const_single {c : Nat} {a : Event} (h : phase a = c) :
    ∀ e ∈ [a], phase e = c := by
  intro e he
  rw [List.mem_singleton.mp he]
  exact h

theorem const_replicate {c : Nat} {a : Event} (h : phase a = c) (n : Nat) :
    ∀ e ∈ List.replicate n a, phase e = c := by
  intro e he
  rw [List.eq_of_mem_replicate he]
  exact h

theorem const_ite {c : Nat} {P : Prop} [Decidable P] {l1 l2 : List Event}
    (h1 : ∀ e ∈ l1, phase e = c) (h2 : ∀ e ∈ l2, phase e = c) :
    ∀ e ∈ (if P then l1 else l2), phase e = c := by
  split
  · exact h1
  · exact h2

theorem const_map_const {c : Nat} {a : Event} (h : phase a = c) (l : List Nat) :
    ∀ e ∈ l.map (fun _ => a), phase e = c := by
  intro e he
  rcases List.mem_map.mp he with ⟨x, _, rfl⟩
  exact h

theorem phaseSorted_of_const {c : Nat} {l : List Event} (h : ∀ e ∈ l, phase e = c) :
    phaseSorted l := by
  induction l with
  | nil => exact List.Pairwise.nil
  | cons a t ih =>
    refine List.Pairwise.cons (fun b hb => ?_) (ih (fun e he => h e (List.mem_cons_of_mem a he)))
    rw [h a (List.mem_cons_self a t), h b (List.mem_cons_of_mem a hb)]

theorem sorted_extend {c1 c2 : Nat} {l1 l2 : List Event}
    (hc : c1 ≤ c2) (h1 : ∀ e ∈ l1, phase e = c1)
    (h2 : phaseSorted l2) (hlb : ∀ e ∈ l2, c2 ≤ phase e) :
    phaseSorted (l1 ++ l2) ∧ ∀ e ∈ l1 ++ l2, c1 ≤ phase e := by
  constructor
  · refine List.pairwise_append.mpr ⟨phaseSorted_of_const h1, h2, fun a ha b hb => ?_⟩
    rw [h1 a ha]
    exact le_trans hc (hlb b hb)
  · intro e he
    rcases List.mem_append.mp he with h | h
    · exact le_of_eq (h1 e h).symm
    · exact le_trans hc (hlb e h)

theorem cpu_phaseSorted (m : SolverModel) (it : Nat) :
    phaseSorted (cpuIterationEvents m it) := by
  unfold cpuIterationEvents
  have s12 : phaseSorted (if m.maxpoles = 0 then ([] : List Event)
      else if m.maxpoles = 1 then [Event.updateElectricDispB true]
      else [Event.updateElectricDispB false]) ∧
      ∀ e ∈ (if m.maxpoles = 0 then ([] : List Event)
      else if m.maxpoles = 1 then [Event.updateElectricDispB true]
      else [Event.updateElectricDispB false]), 9 ≤ phase e := by
    have hc : ∀ e ∈ (if m.maxpoles = 0 then ([] : List Event)
        else if m.maxpoles = 1 then [Event.updateElectricDispB true]
        else [Event.updateElectricDispB false]), phase e = 9 :=
      const_ite const_nil (const_ite
        (const_single (a := Event.updateElectricDispB true) rfl)
        (const_single (a := Event.updateElectricDispB false) rfl))
    exact ⟨phaseSorted_of_const hc, fun e he => le_of_eq (hc e he).symm⟩
  have s11 := sorted_extend (by norm_num)
    (const_replicate (c := 8) (a := Event.srcUpdateElectric SourceKind.hertzian) rfl
      m.nhertzian) s12.1 s12.2
  have s10 := sorted_extend (by norm_num)
    (const_replicate (c := 7) (a := Event.srcUpdateElectric SourceKind.transmissionline) rfl
      m.ntransmission) s11.1 s11.2
  have s9 := sorted_extend (le_refl 7)
    (const_replicate (c := 7) (a := Event.srcUpdateElectric SourceKind.voltage) rfl
      m.nvoltage) s10.1 s10.2
  have s8 := sorted_extend (by norm_num)
    (const_replicate (c := 6) (a := Event.pmlUpdateElectric) rfl m.npmls) s9.1 s9.2
  have s7 := sorted_extend (by norm_num)
    (const_ite (c := 5) (P := m.maxpoles = 0)
      (const_single (a := Event.updateElectric) rfl)
      (const_ite (P := m.maxpoles = 1)
        (const_single (a := Event.updateElectricDispA true) rfl)
        (const_single (a := Event.updateElectricDispA false) rfl))) s8.1 s8.2
  have s6 := sorted_extend (by norm_num)
    (const_replicate (c := 4) (a := Event.srcUpdateMagnetic SourceKind.magneticdipole) rfl
      m.nmagnetic) s7.1 s7.2
  have s5 := sorted_extend (le_refl 4)
    (const_replicate (c := 4) (a := Event.srcUpdateMagnetic SourceKind.transmissionline) rfl
      m.ntransmission) s6.1 s6.2
  have s4 := sorted_extend (by norm_num)
    (const_replicate (c := 3) (a := Event.pmlUpdateMagnetic) rfl m.npmls) s5.1 s5.2
  have s3 := sorted_extend (by norm_num)
    (const_single (c := 2) (a := Event.updateMagnetic) rfl) s4.1 s4.2
  have s2 := sorted_extend (by norm_num)
    (const_map_const (c := 1) (a := Event.writeSnapshot) rfl
      (m.snapshottimes.filter (fun t => t = it + 1))) s3.1 s3.2
  exact (sorted_extend (by norm_num)
    (const_single (c := 0) (a := Event.storeOutputs) rfl) s2.1 s2.2).1

theorem gpu_phaseSorted (m : SolverModel) (it : Nat) :
    phaseSorted (gpuIterationEvents m it) := by
  unfold gpuIterationEvents
  have s9 : phaseSorted (if m.maxpoles = 0 then ([] : List Event)
      else [Event.updateElectricDispB false]) ∧
      ∀ e ∈ (if m.maxpoles = 0 then ([] : List Event)
      else [Event.updateElectricDispB false]), 9 ≤ phase e := by
    have hc : ∀ e ∈ (if m.maxpoles = 0 then ([] : List Event)
        else [Event.updateElectricDispB false]), phase e = 9 :=
      const_ite const_nil (const_single (a := Event.updateElectricDispB false) rfl)
    exact ⟨phaseSorted_of_const hc, fun e he => le_of_eq (hc e he).symm⟩
  have s8 := sorted_extend (by norm_num)
    (const_ite (c := 8) (P := m.nhertzian = 0) const_nil
      (const_replicate (a := Event.srcUpdateElectric SourceKind.hertzian) rfl
        m.nhertzian)) s9.1 s9.2
  have s7 := sorted_extend (by norm_num)
    (const_ite (c := 7) (P := m.nvoltage = 0) const_nil
      (const_replicate (a := Event.srcUpdateElectric SourceKind.voltage) rfl
        m.nvoltage)) s8.1 s8.2
  have s6 := sorted_extend (by norm_num)
    (const_replicate (c := 6) (a := Event.pmlUpdateElectric) rfl m.npmls) s7.1 s7.2
  have s5 := sorted_extend (by norm_num)
    (const_ite (c := 5) (P := m.maxpoles = 0)
      (const_single (a := Event.updateElectric) rfl)
      (const_single (a := Event.updateElectricDispA false) rfl)) s6.1 s6.2
  have s4 := sorted_extend (by norm_num)
    (const_ite (c := 4) (P := m.nmagnetic = 0) const_nil
      (const_replicate (a := Event.srcUpdateMagnetic SourceKind.magneticdipole) rfl
        m.nmagnetic)) s5.1 s5.2
  have s3 := sorted_extend (by norm_num)
    (const_replicate (c := 3) (a := Event.pmlUpdateMagnetic) rfl m.npmls) s4.1 s4.2
  have s2 := sorted_extend (by norm_num)
    (const_single (c := 2) (a := Event.updateMagnetic) rfl) s3.1 s3.2
  exact (sorted_extend (by norm_num)
    (const_ite (c := 0) (P := m.nrxs = 0) const_nil
      (const_single (a := Event.storeOutputs) rfl)) s2.1 s2.2).1

theorem eventsPrecede_of_sorted {p q : Event → Bool} {l : List Event}
    (hs : phaseSorted l)
    (hpq : ∀ a b : Event, p a = true → q b = true → phase a < phase b) :
    eventsPrecede p q l := by
  intro i j hp hq
  by_contra hij
  have hji : (j : Nat) ≤ (i : Nat) := Nat.le_of_not_lt hij
  have hlt := hpq _ _ hp hq
  rcases Nat.lt_or_ge (j : Nat) (i : Nat) with h | h
  · have := List.pairwise_iff_get.mp hs j i h
    exact absurd hlt (not_lt_of_le this)
  · have hij2 : i = j := Fin.ext (Nat.le_antisymm h hji)
    subst hij2
    exact absurd hlt (lt_irrefl _)

theorem filter_replicate_true {p : Event → Bool} {a : Event} (h : p a = true) (n : Nat) :
    List.filter p (List.replicate n a) = List.replicate n a := by
  induction n with
  | zero => rfl
  | succ k ih => rw [List.replicate_succ, List.filter_cons_of_pos h, ih]

theorem filter_replicate_false {p : Event → Bool} {a : Event} (h : p a = false) (n : Nat) :
    List.filter p (List.replicate n a) = [] := by
  induction n with
  | zero => rfl
  | succ k ih => rw [List.replicate_succ, List.filter_cons_of_neg (by simp [h]), ih]

theorem filter_map_const_false {p : Event → Bool} {a : Event} (h : p a = false) (l : List Nat) :
    List.filter p (l.map (fun _ => a)) = [] := by
  induction l with
  | nil => rfl
  | cons x t ih => rw [List.map_cons, List.filter_cons_of_neg (by simp [h]), ih]

theorem filter_event_ite (p : Event → Bool) (P : Prop) [Decidable P] (l1 l2 : List Event) :
    List.filter p (if P then l1 else l2) = if P then List.filter p l1 else List.filter p l2 := by
  split
  · rfl
  · rfl

theorem ite_nil_replicate {α : Type} (n : Nat) (a : α) :
    (if n = 0 then ([] : List α) else List.replicate n a) = List.replicate n a := by
  split
  · rename_i h
    rw [h]
    rfl
  · rfl

theorem filter_singleton_false {p : Event → Bool} {a : Event} (h : p a = false) :
    List.filter p [a] = [] := by
  rw [List.filter_cons_of_neg (by simp [h])]
  rfl

theorem count_map_const_zero {a b : Event} (h : ¬ a = b) (l : List Nat) :
    (l.map (fun _ => b)).count a = 0 := by
  rw [List.count_eq_zero]
  intro hmem
  rcases List.mem_map.mp hmem with ⟨x, _, h2⟩
  exact h h2.symm

theorem count_event_ite (a : Event) (P : Prop) [Decidable P] (l1 l2 : List Event) :
    List.count a (if P then l1 else l2) = if P then List.count a l1 else List.count a l2 := by
  split
  · rfl
  · rfl

/-- Claim C4: in every iteration of both solver loops, electric-type
source updates come only after the main electric-field update (or its
dispersive phase A) and after every PML electric correction, and among
the electric-type source updates the Hertzian-dipole updates come after
all voltage-source and transmission-line updates. -/
theorem claim_C4_electric_source_ordering (m : SolverModel) (it : Nat) :
    (eventsPrecede isPreElectricUpdate isElectricSourceUpdate (cpuIterationEvents m it) ∧
     eventsPrecede isOtherElectricSourceUpdate isHertzianElectricUpdate (cpuIterationEvents m it)) ∧
    (eventsPrecede isPreElectricUpdate isElectricSourceUpdate (gpuIterationEvents m it) ∧
     eventsPrecede isOtherElectricSourceUpdate isHertzianElectricUpdate (gpuIterationEvents m it)) :=
  ⟨⟨eventsPrecede_of_sorted (cpu_phaseSorted m it) (by decide),
    eventsPrecede_of_sorted (cpu_phaseSorted m it) (by decide)⟩,
   ⟨eventsPrecede_of_sorted (gpu_phaseSorted m it) (by decide),
    eventsPrecede_of_sorted (gpu_phaseSorted m it) (by decide)⟩⟩

/-- Claim C8: in every iteration of both solver loops the receivers are
sampled exactly once (one store_outputs event), as the very first event
of the iteration, strictly before every field, PML, source or
dispersive update of that iteration; on the GPU loop this holds
whenever the model has receivers (with no receivers the GPU loop skips
sampling). -/
theorem claim_C8_receiver_sampling_first (m : SolverModel) (it : Nat) :
    ((cpuIterationEvents m it).count Event.storeOutputs = 1 ∧
     (cpuIterationEvents m it).head? = some Event.storeOutputs ∧
     eventsPrecede (fun e => e == Event.storeOutputs) isFieldOrSourceUpdate
       (cpuIterationEvents m it)) ∧
    (m.nrxs ≠ 0 →
     ((gpuIterationEvents m it).count Event.storeOutputs = 1 ∧
      (gpuIterationEvents m it).head? = some Event.storeOutputs ∧
      eventsPrecede (fun e => e == Event.storeOutputs) isFieldOrSourceUpdate
        (gpuIterationEvents m it))) := by
  constructor
  · refine ⟨?_, rfl, eventsPrecede_of_sorted (cpu_phaseSorted m it) (by decide)⟩
    unfold cpuIterationEvents
    simp [List.count_append, List.count_replicate, count_event_ite,
      count_map_const_zero, List.count_cons, List.count_nil]
  · intro h
    refine ⟨?_, ?_, eventsPrecede_of_sorted (gpu_phaseSorted m it) (by decide)⟩
    · unfold gpuIterationEvents
      simp [h, List.count_append, List.count_replicate, count_event_ite,
        List.count_cons, List.count_nil]
    · simp [gpuIterationEvents, h]

/-- Claim C1, counterexample: on the concrete model tlModel, which
holds one transmission line, the CPU loop applies transmission-line
source updates in both half-steps of every iteration while the GPU loop
applies none, so the two backends do not perform the same set of
per-iteration source updates. -/
theorem claim_C1_counterexample :
    Event.srcUpdateElectric SourceKind.transmissionline ∈ cpuIterationEvents tlModel 0 ∧
    Event.srcUpdateMagnetic SourceKind.transmissionline ∈ cpuIterationEvents tlModel 0 ∧
    Event.srcUpdateElectric SourceKind.transmissionline ∉ gpuIterationEvents tlModel 0 ∧
    Event.srcUpdateMagnetic SourceKind.transmissionline ∉ gpuIterationEvents tlModel 0 ∧
    (cpuIterationEvents tlModel 0).filter isSourceUpdate ≠
      (gpuIterationEvents tlModel 0).filter isSourceUpdate := by
  decide

/-- Claim C1, amended: for every model without transmission lines the
CPU and the GPU loop apply, in every iteration, exactly the same
sequence of per-iteration source updates (magnetic dipoles in the
magnetic half-step; voltage sources then Hertzian dipoles in the
electric half-step).  The GPU loop contains no transmission-line
update, so models with transmission lines are outside the agreement. -/
theorem claim_C1_same_source_updates (m : SolverModel) (it : Nat)
    (h : m.ntransmission = 0) :
    (cpuIterationEvents m it).filter isSourceUpdate =
      (gpuIterationEvents m it).filter isSourceUpdate := by
  unfold cpuIterationEvents gpuIterationEvents
  rw [h]
  simp only [List.replicate_zero, List.filter_append, filter_event_ite,
    List.nil_append, List.filter_nil]
  rw [filter_replicate_true (by rfl) m.nmagnetic,
    filter_replicate_true (by rfl) m.nvoltage,
    filter_replicate_true (by rfl) m.nhertzian,
    filter_replicate_false (a := Event.pmlUpdateMagnetic) (by rfl) m.npmls,
    filter_replicate_false (a := Event.pmlUpdateElectric) (by rfl) m.npmls,
    filter_map_const_false (a := Event.writeSnapshot) (by rfl)]
  simp only [filter_singleton_false (p := isSourceUpdate) (a := Event.storeOutputs) rfl,
    filter_singleton_false (p := isSourceUpdate) (a := Event.updateMagnetic) rfl,
    filter_singleton_false (p := isSourceUpdate) (a := Event.updateElectric) rfl,
    filter_singleton_false (p := isSourceUpdate) (a := Event.updateElectricDispA true) rfl,
    filter_singleton_false (p := isSourceUpdate) (a := Event.updateElectricDispA false) rfl,
    filter_singleton_false (p := isSourceUpdate) (a := Event.updateElectricDispB true) rfl,
    filter_singleton_false (p := isSourceUpdate) (a := Event.updateElectricDispB false) rfl]
  simp [ite_nil_replicate]

theorem axis_check_of_final_oob (n o st me : Int) (hme : 1 ≤ me)
    (h0 : 0 ≤ o) (h1 : o ≤ n)
    (h : o + (me - 1) * st < 0 ∨ n < o + (me - 1) * st) :
    o + st * me < 0 ∨ o + st * me > n := by
  have key : st * me = (me - 1) * st + st := by ring
  rcases le_or_lt 0 st with hst | hst
  · have hnn : 0 ≤ (me - 1) * st := mul_nonneg (by linarith) hst
    rcases h with h | h
    · linarith
    · right
      linarith
  · have hnp : (me - 1) * st ≤ (me - 1) * 0 :=
      mul_le_mul_of_nonneg_left (le_of_lt hst) (by linarith)
    rw [mul_zero] at hnp
    rcases h with h | h
    · left
      linarith
    · linarith

theorem steppedOutOfDomain_of_final_oob (nx ny nz : Int) (steps : Steps) (me : Int)
    (hme : 1 ≤ me) (s : SrcRx)
    (hx : s.xcoord = s.xcoordorigin) (hy : s.ycoord = s.ycoordorigin)
    (hz : s.zcoord = s.zcoordorigin)
    (hin : positionInBounds nx ny nz s)
    (hoob : ¬ positionInBounds nx ny nz (stepPosition me steps s)) :
    steppedOutOfDomain nx ny nz steps me s := by
  obtain ⟨hbx0, hbx1, hby0, hby1, hbz0, hbz1⟩ := hin
  unfold positionInBounds stepPosition at hoob
  simp only [not_and_or, not_le] at hoob
  unfold steppedOutOfDomain
  rw [hx, hy, hz]
  rw [hx] at hbx0 hbx1
  rw [hy] at hby0 hby1
  rw [hz] at hbz0 hbz1
  rcases hoob with h | h | h | h | h | h
  · rcases axis_check_of_final_oob nx s.xcoordorigin steps.x me hme hbx0 hbx1 (Or.inl h) with
      h2 | h2
    · exact Or.inl h2
    · exact Or.inr (Or.inl h2)
  · rcases axis_check_of_final_oob nx s.xcoordorigin steps.x me hme hbx0 hbx1 (Or.inr h) with
      h2 | h2
    · exact Or.inl h2
    · exact Or.inr (Or.inl h2)
  · rcases axis_check_of_final_oob ny s.ycoordorigin steps.y me hme hby0 hby1 (Or.inl h) with
      h2 | h2
    · exact Or.inr (Or.inr (Or.inl h2))
    · exact Or.inr (Or.inr (Or.inr (Or.inl h2)))
  · rcases axis_check_of_final_oob ny s.ycoordorigin steps.y me hme hby0 hby1 (Or.inr h) with
      h2 | h2
    · exact Or.inr (Or.inr (Or.inl h2))
    · exact Or.inr (Or.inr (Or.inr (Or.inl h2)))
  · rcases axis_check_of_final_oob nz s.zcoordorigin steps.z me hme hbz0 hbz1 (Or.inl h) with
      h2 | h2
    · exact Or.inr (Or.inr (Or.inr (Or.inr (Or.inl h2))))
    · exact Or.inr (Or.inr (Or.inr (Or.inr (Or.inr h2))))
  · rcases axis_check_of_final_oob nz s.zcoordorigin steps.z me hme hbz0 hbz1 (Or.inr h) with
      h2 | h2
    · exact Or.inr (Or.inr (Or.inr (Or.inr (Or.inl h2))))
    · exact Or.inr (Or.inr (Or.inr (Or.inr (Or.inr h2))))

theorem adjustList_error_of_mem (nx ny nz me : Int) (steps : Steps) (msg : String)
    (l : List SrcRx) (s : SrcRx) (hs : s ∈ l)
    (h : steppedOutOfDomain nx ny nz steps me s) :
    adjustList nx ny nz 1 me steps msg l = Except.error msg := by
  induction l with
  | nil => cases hs
  | cons a t ih =>
    unfold adjustList
    by_cases ha : steppedOutOfDomain nx ny nz steps me a
    · rw [if_pos ⟨rfl, ha⟩]
    · have hst : s ∈ t := by
        rcases List.mem_cons.mp hs with h2 | h2
        · exact absurd (h2 ▸ h) ha
        · exact h2
      rw [if_neg (fun hc => ha hc.2), ih hst]
      rfl

theorem adjustList_ok_map (nx ny nz run me : Int) (steps : Steps) (msg : String)
    (l l2 : List SrcRx) (h : adjustList nx ny nz run me steps msg l = Except.ok l2) :
    l2 = l.map (stepPosition run steps) := by
  induction l generalizing l2 with
  | nil =>
    unfold adjustList at h
    cases h
    rfl
  | cons a t ih =>
    unfold adjustList at h
    split at h
    · cases h
    · cases hrec : adjustList nx ny nz run me steps msg t with
      | error m2 =>
        rw [hrec] at h
        cases h
      | ok t2 =>
        rw [hrec] at h
        cases h
        rw [List.map_cons, ih t2 hrec]

theorem adjustSourcesPhase_ok_proj (run me : Int) (g g1 : FDTDGrid)
    (h : adjustSourcesPhase run me g = Except.ok g1) :
    g1.nx = g.nx ∧ g1.ny = g.ny ∧ g1.nz = g.nz ∧ g1.rxsteps = g.rxsteps ∧
    g1.rxs = g.rxs ∧ g1.voltagesources = g.voltagesources ∧
    g1.transmissionlines = g.transmissionlines := by
  unfold adjustSourcesPhase at h
  split at h
  · split at h
    · cases h
    · split at h
      · cases h
      · cases h
        exact ⟨rfl, rfl, rfl, rfl, rfl, rfl, rfl⟩
  · cases h
    exact ⟨rfl, rfl, rfl, rfl, rfl, rfl, rfl⟩

theorem adjustSourcesPhase_ok_map (run me : Int) (g g1 : FDTDGrid)
    (hstep : g.srcsteps.x ≠ 0 ∨ g.srcsteps.y ≠ 0 ∨ g.srcsteps.z ≠ 0)
    (h : adjustSourcesPhase run me g = Except.ok g1) :
    g1 = { g with
           hertziandipoles := g.hertziandipoles.map (stepPosition run g.srcsteps),
           magneticdipoles := g.magneticdipoles.map (stepPosition run g.srcsteps) } := by
  unfold adjustSourcesPhase at h
  rw [if_pos hstep] at h
  cases h1 : adjustList g.nx g.ny g.nz run me g.srcsteps srcStepErrMsg g.hertziandipoles with
  | error m2 =>
    rw [h1] at h
    cases h
  | ok hs =>
    rw [h1] at h
    cases h2 : adjustList g.nx g.ny g.nz run me g.srcsteps srcStepErrMsg g.magneticdipoles with
    | error m2 =>
      rw [h2] at h
      cases h
    | ok ms =>
      rw [h2] at h
      cases h
      rw [adjustList_ok_map _ _ _ _ _ _ _ _ _ h1, adjustList_ok_map _ _ _ _ _ _ _ _ _ h2]

theorem adjustReceiversPhase_ok_map (run me : Int) (g g1 : FDTDGrid)
    (hstep : g.rxsteps.x ≠ 0 ∨ g.rxsteps.y ≠ 0 ∨ g.rxsteps.z ≠ 0)
    (h : adjustReceiversPhase run me g = Except.ok g1) :
    g1 = { g with rxs := g.rxs.map (stepPosition run g.rxsteps) } := by
  unfold adjustReceiversPhase at h
  rw [if_pos hstep] at h
  cases h1 : adjustList g.nx g.ny g.nz run me g.rxsteps rxStepErrMsg g.rxs with
  | error m2 =>
    rw [h1] at h
    cases h
  | ok rs =>
    rw [h1] at h
    cases h
    rw [adjustList_ok_map _ _ _ _ _ _ _ _ _ h1]

/-- Claim C2, counterexample: on cexGrid with 5 runs the stepped source
sits inside the domain at every run - x = 1,3,5,7,9 over runs 1..5 -
yet the first run raises the fatal stepping error, because run_model
checks xcoord + srcsteps.x * modelend = 11 > nx = 10, one step beyond
the position of the worst-case (last) run.  The bound that is checked
is therefore not the position of the last run. -/
theorem claim_C2_counterexample :
    (∀ k ∈ ([1, 2, 3, 4, 5] : List Int),
       positionInBounds cexGrid.nx cexGrid.ny cexGrid.nz
         (stepPosition k cexGrid.srcsteps cexSource)) ∧
    adjustPositions 1 5 cexGrid = Except.error srcStepErrMsg :=
  ⟨by decide, by rfl⟩

/-- Claim C2 (amended): for a model whose per-run step vector has a
nonzero axis, if stepping would move any simple source (Hertzian or
magnetic dipole) or receiver outside the grid bounds by the final run,
then the first run raises the fatal stepping error before any field
update executes (the run result is an error carrying no solver events).
The bound run_model actually checks is coordinate + step * modelend,
one step beyond the last run: for in-bounds starting positions it is at
least as strict as the last-run position, so an out-of-bounds final run
is always caught. -/
theorem claim_C2_stepped_out_of_domain_fatal (g : FDTDGrid) (m : SolverModel)
    (modelend : Int) (hme : 1 ≤ modelend)
    (horig : ∀ s ∈ (g.hertziandipoles ++ g.magneticdipoles) ++ g.rxs,
       s.xcoord = s.xcoordorigin ∧ s.ycoord = s.ycoordorigin ∧ s.zcoord = s.zcoordorigin ∧
       positionInBounds g.nx g.ny g.nz s)
    (hoob :
      ((g.srcsteps.x ≠ 0 ∨ g.srcsteps.y ≠ 0 ∨ g.srcsteps.z ≠ 0) ∧
        ∃ s ∈ g.hertziandipoles ++ g.magneticdipoles,
          ¬ positionInBounds g.nx g.ny g.nz (stepPosition modelend g.srcsteps s)) ∨
      ((g.rxsteps.x ≠ 0 ∨ g.rxsteps.y ≠ 0 ∨ g.rxsteps.z ≠ 0) ∧
        ∃ r ∈ g.rxs,
          ¬ positionInBounds g.nx g.ny g.nz (stepPosition modelend g.rxsteps r))) :
    ∃ msg, runModelSolve 1 modelend g m = Except.error msg := by
  unfold runModelSolve adjustPositions
  rcases hoob with ⟨hstep, s, hsmem, hsoob⟩ | ⟨hstep, r, hrmem, hroob⟩
  · obtain ⟨hex, hey, hez, hein⟩ := horig s (List.mem_append_left _ hsmem)
    have hchk := steppedOutOfDomain_of_final_oob g.nx g.ny g.nz g.srcsteps modelend hme s
      hex hey hez hein hsoob
    unfold adjustSourcesPhase
    rw [if_pos hstep]
    rcases List.mem_append.mp hsmem with hmem | hmem
    · rw [adjustList_error_of_mem _ _ _ _ _ _ _ _ hmem hchk]
      exact ⟨srcStepErrMsg, rfl⟩
    · cases h1 : adjustList g.nx g.ny g.nz 1 modelend g.srcsteps srcStepErrMsg
        g.hertziandipoles with
      | error m2 => exact ⟨m2, rfl⟩
      | ok hs =>
        rw [adjustList_error_of_mem _ _ _ _ _ _ _ _ hmem hchk]
        exact ⟨srcStepErrMsg, rfl⟩
  · cases h1 : adjustSourcesPhase 1 modelend g with
    | error m2 => exact ⟨m2, rfl⟩
    | ok g1 =>
      obtain ⟨hnx, hny, hnz, hrsteps, hrxs, _, _⟩ :=
        adjustSourcesPhase_ok_proj 1 modelend g g1 h1
      obtain ⟨hex, hey, hez, hein⟩ := horig r (List.mem_append_right _ hrmem)
      have hchk := steppedOutOfDomain_of_final_oob g.nx g.ny g.nz g.rxsteps modelend hme r
        hex hey hez hein hroob
      have hrp : adjustReceiversPhase 1 modelend g1 = Except.error rxStepErrMsg := by
        unfold adjustReceiversPhase
        rw [hrsteps, hrxs, hnx, hny, hnz, if_pos hstep,
          adjustList_error_of_mem _ _ _ _ _ _ _ _ hrmem hchk]
      refine ⟨rxStepErrMsg, ?_⟩
      show (match adjustReceiversPhase 1 modelend g1 with
            | Except.error msg => Except.error msg
            | Except.ok g2 => Except.ok (g2, cpuSolveEvents m)) = Except.error rxStepErrMsg
      rw [hrp]

/-- Witness for the amended C2 at the concrete grid oobGrid: its single
Hertzian dipole starts at x=0 and is stepped by 3 cells per run, so by
the final run 5 it would sit at x=12, outside the 10-cell domain, and
the first run aborts with an error before any solver event. -/
theorem claim_C2_witness :
    ((1 : Int) ≤ 5 ∧
     (∀ s ∈ (oobGrid.hertziandipoles ++ oobGrid.magneticdipoles) ++ oobGrid.rxs,
        s.xcoord = s.xcoordorigin ∧ s.ycoord = s.ycoordorigin ∧ s.zcoord = s.zcoordorigin ∧
        positionInBounds oobGrid.nx oobGrid.ny oobGrid.nz s) ∧
     ((oobGrid.srcsteps.x ≠ 0 ∨ oobGrid.srcsteps.y ≠ 0 ∨ oobGrid.srcsteps.z ≠ 0) ∧
       ∃ s ∈ oobGrid.hertziandipoles ++ oobGrid.magneticdipoles,
         ¬ positionInBounds oobGrid.nx oobGrid.ny oobGrid.nz
             (stepPosition 5 oobGrid.srcsteps s))) ∧
    ∃ msg, runModelSolve 1 5 oobGrid plainModel = Except.error msg :=
  ⟨⟨by decide, by decide, by decide⟩,
   claim_C2_stepped_out_of_domain_fatal oobGrid plainModel 5 (by decide) (by decide)
     (Or.inl (by decide))⟩

/-- Claim C3: for every run k for which the adjustment succeeds and
whose step vectors have a nonzero axis, the repositioned Hertzian
dipoles, magnetic dipoles and receivers are exactly the originals moved
by stepPosition, and on every axis the new coordinate equals
origin + (k - 1) * step exactly. -/
theorem claim_C3_stepped_coordinates (g g2 : FDTDGrid) (k modelend : Int)
    (hsrc : g.srcsteps.x ≠ 0 ∨ g.srcsteps.y ≠ 0 ∨ g.srcsteps.z ≠ 0)
    (hrx : g.rxsteps.x ≠ 0 ∨ g.rxsteps.y ≠ 0 ∨ g.rxsteps.z ≠ 0)
    (hok : adjustPositions k modelend g = Except.ok g2) :
    g2.hertziandipoles = g.hertziandipoles.map (stepPosition k g.srcsteps) ∧
    g2.magneticdipoles = g.magneticdipoles.map (stepPosition k g.srcsteps) ∧
    g2.rxs = g.rxs.map (stepPosition k g.rxsteps) ∧
    ∀ (s : SrcRx) (st : Steps),
      (stepPosition k st s).xcoord = s.xcoordorigin + (k - 1) * st.x ∧
      (stepPosition k st s).ycoord = s.ycoordorigin + (k - 1) * st.y ∧
      (stepPosition k st s).zcoord = s.zcoordorigin + (k - 1) * st.z := by
  unfold adjustPositions at hok
  cases h1 : adjustSourcesPhase k modelend g with
  | error m2 =>
    rw [h1] at hok
    cases hok
  | ok g1 =>
    rw [h1] at hok
    have hg1 := adjustSourcesPhase_ok_map k modelend g g1 hsrc h1
    subst hg1
    have hok2 : adjustReceiversPhase k modelend
        { g with hertziandipoles := g.hertziandipoles.map (stepPosition k g.srcsteps),
                 magneticdipoles := g.magneticdipoles.map (stepPosition k g.srcsteps) } =
        Except.ok g2 := hok
    have hg2 := adjustReceiversPhase_ok_map k modelend
      { g with hertziandipoles := g.hertziandipoles.map (stepPosition k g.srcsteps),
               magneticdipoles := g.magneticdipoles.map (stepPosition k g.srcsteps) }
      g2 hrx hok2
    subst hg2
    exact ⟨rfl, rfl, rfl, fun s st => ⟨rfl, rfl, rfl⟩⟩

/-- Witness for C3 at the concrete grid stepGrid, run 2 of 3: the
Hertzian dipole moves from (2,3,4) to (3,3,4) = origin + 1 * (1,0,0)
and the receiver from (5,6,7) to (5,8,7) = origin + 1 * (0,2,0). -/
theorem claim_C3_witness :
    ((stepGrid.srcsteps.x ≠ 0 ∨ stepGrid.srcsteps.y ≠ 0 ∨ stepGrid.srcsteps.z ≠ 0) ∧
     (stepGrid.rxsteps.x ≠ 0 ∨ stepGrid.rxsteps.y ≠ 0 ∨ stepGrid.rxsteps.z ≠ 0) ∧
     adjustPositions 2 3 stepGrid = Except.ok stepGridRun2) ∧
    (stepGridRun2.hertziandipoles =
       stepGrid.hertziandipoles.map (stepPosition 2 stepGrid.srcsteps) ∧
     stepGridRun2.magneticdipoles =
       stepGrid.magneticdipoles.map (stepPosition 2 stepGrid.srcsteps) ∧
     stepGridRun2.rxs = stepGrid.rxs.map (stepPosition 2 stepGrid.rxsteps) ∧
     ∀ (s : SrcRx) (st : Steps),
       (stepPosition 2 st s).xcoord = s.xcoordorigin + (2 - 1) * st.x ∧
       (stepPosition 2 st s).ycoord = s.ycoordorigin + (2 - 1) * st.y ∧
       (stepPosition 2 st s).zcoord = s.zcoordorigin + (2 - 1) * st.z) :=
  ⟨⟨by decide, by decide, by rfl⟩,
   claim_C3_stepped_coordinates stepGrid stepGridRun2 2 3 (by decide) (by decide) (by rfl)⟩

theorem adjustSourcesPhase_update (run me : Int) (g : FDTDGrid) (vs ts : List SrcRx) :
    adjustSourcesPhase run me { g with voltagesources := vs, transmissionlines := ts } =
      Except.map (fun g2 => { g2 with voltagesources := vs, transmissionlines := ts })
        (adjustSourcesPhase run me g) := by
  unfold adjustSourcesPhase
  by_cases hstep : g.srcsteps.x ≠ 0 ∨ g.srcsteps.y ≠ 0 ∨ g.srcsteps.z ≠ 0
  · rw [if_pos hstep, if_pos hstep]
    cases adjustList g.nx g.ny g.nz run me g.srcsteps srcStepErrMsg g.hertziandipoles with
    | error m2 => rfl
    | ok hs =>
      cases adjustList g.nx g.ny g.nz run me g.srcsteps srcStepErrMsg g.magneticdipoles with
      | error m2 => rfl
      | ok ms => rfl
  · rw [if_neg hstep, if_neg hstep]
    rfl

theorem adjustReceiversPhase_update (run me : Int) (g : FDTDGrid) (vs ts : List SrcRx) :
    adjustReceiversPhase run me { g with voltagesources := vs, transmissionlines := ts } =
      Except.map (fun g2 => { g2 with voltagesources := vs, transmissionlines := ts })
        (adjustReceiversPhase run me g) := by
  unfold adjustReceiversPhase
  by_cases hstep : g.rxsteps.x ≠ 0 ∨ g.rxsteps.y ≠ 0 ∨ g.rxsteps.z ≠ 0
  · rw [if_pos hstep, if_pos hstep]
    cases adjustList g.nx g.ny g.nz run me g.rxsteps rxStepErrMsg g.rxs with
    | error m2 => rfl
    | ok rs => rfl
  · rw [if_neg hstep, if_neg hstep]
    rfl

/-- Claim C10: the per-run repositioning block touches only Hertzian
dipoles, magnetic dipoles and receivers.  Replacing the voltage-source
and transmission-line lists changes nothing of the result except that
those same lists are carried through unchanged: they are never stepped
and never inspected by the first-run out-of-domain validation. -/
theorem claim_C10_voltage_tl_not_stepped (run modelend : Int) (g : FDTDGrid)
    (vs ts : List SrcRx) :
    adjustPositions run modelend
        { g with voltagesources := vs, transmissionlines := ts } =
      Except.map (fun g2 => { g2 with voltagesources := vs, transmissionlines := ts })
        (adjustPositions run modelend g) := by
  unfold adjustPositions
  rw [adjustSourcesPhase_update]
  cases adjustSourcesPhase run modelend g with
  | error m2 => rfl
  | ok g1 =>
    show adjustReceiversPhase run modelend
        { g1 with voltagesources := vs, transmissionlines := ts } =
      Except.map (fun g2 => { g2 with voltagesources := vs, transmissionlines := ts })
        (adjustReceiversPhase run modelend g1)
    exact adjustReceiversPhase_update run modelend g1 vs ts

/-- Claim C9: the geometry-reuse branch resets exactly the main field
arrays and the PML auxiliary field arrays (to zero, keeping their
sizes); the ID array, the material list, both update-coefficient tables
and the PML coefficient arrays are left untouched. -/
theorem claim_C9_reuse_resets_only_fields (g : GridArrays) :
    (reuseGeometryBranch g).ID = g.ID ∧
    (reuseGeometryBranch g).materials = g.materials ∧
    (reuseGeometryBranch g).updatecoeffsE = g.updatecoeffsE ∧
    (reuseGeometryBranch g).updatecoeffsH = g.updatecoeffsH ∧
    (reuseGeometryBranch g).pmls.map PMLRegion.coeffArrays =
      g.pmls.map PMLRegion.coeffArrays ∧
    (reuseGeometryBranch g).fieldArrays = List.replicate g.fieldArrays.length 0 ∧
    (reuseGeometryBranch g).pmls.map PMLRegion.fieldArrays =
      g.pmls.map (fun p => List.replicate p.fieldArrays.length 0) := by
  refine ⟨rfl, rfl, rfl, rfl, ?_, rfl, ?_⟩
  · unfold reuseGeometryBranch GridArrays.initialiseFieldArrays
    rw [List.map_map]
    rfl
  · unfold reuseGeometryBranch GridArrays.initialiseFieldArrays
    rw [List.map_map]
    rfl

/-- Claim C5: for a dispersive model (maxpoles nonzero) whose memory
estimate exceeds the host RAM, or exceeds the total memory of the
selected GPU, the build raises a fatal error and the dispersive
auxiliary arrays Tx, Ty, Tz are never allocated - the event trace of
the admission step is empty, so no partial allocation exists. -/
theorem claim_C5_admission_before_alloc (c : BuildConfig)
    (hpoles : c.maxpoles ≠ 0)
    (hmem : c.memestimate > c.hostram ∨
      ∃ d, c.gpu = some d ∧ c.memestimate > d.totalmem) :
    (∃ msg, (dispersiveAdmission c).2 = Except.error msg) ∧
    BuildEvent.allocDispersiveArrays ∉ (dispersiveAdmission c).1 := by
  unfold dispersiveAdmission
  rw [if_pos hpoles]
  rcases hmem with hram | ⟨d, hd, hgpu⟩
  · rw [if_pos hram]
    exact ⟨⟨_, rfl⟩, List.not_mem_nil _⟩
  · by_cases hram : c.memestimate > c.hostram
    · rw [if_pos hram]
      exact ⟨⟨_, rfl⟩, List.not_mem_nil _⟩
    · rw [if_neg hram, hd]
      simp only [Option.elim]
      rw [if_pos hgpu]
      exact ⟨⟨_, rfl⟩, List.not_mem_nil _⟩

/-- Witness for C5 at the concrete configuration overRamConfig:
maxpoles 2 and an estimate of 4000 against 1000 of host RAM. -/
theorem claim_C5_witness :
    (overRamConfig.maxpoles ≠ 0 ∧ overRamConfig.memestimate > overRamConfig.hostram) ∧
    (∃ msg, (dispersiveAdmission overRamConfig).2 = Except.error msg) ∧
    BuildEvent.allocDispersiveArrays ∉ (dispersiveAdmission overRamConfig).1 :=
  ⟨⟨by decide, by decide⟩,
   claim_C5_admission_before_alloc overRamConfig (by decide) (Or.inl (by decide))⟩

/-- Claim C6: on the GPU backend, when the combined byte size of the
electric and magnetic update-coefficient tables exceeds the constant
memory of the device, solve_gpu raises a fatal error whose trace holds
no device copy of the coefficient tables and no kernel launch - only
the kernel compilation that precedes the check. -/
theorem claim_C6_constmem_check (c : GPUSolveConfig)
    (h : c.updatecoeffsEnbytes + c.updatecoeffsHnbytes > c.constmem) :
    (∃ msg, (solveGpuTrace c).2 = Except.error msg) ∧
    GPUEvent.copyCoeffsToDevice ∉ (solveGpuTrace c).1 ∧
    GPUEvent.kernelLaunch ∉ (solveGpuTrace c).1 := by
  unfold solveGpuTrace
  rw [if_pos h]
  refine ⟨⟨_, rfl⟩, ?_, ?_⟩
  · intro hmem
    simp at hmem
  · intro hmem
    simp at hmem

/-- Witness for C6 at the concrete configuration overConstConfig:
40000 + 40000 bytes of coefficients against a 65536-byte budget. -/
theorem claim_C6_witness :
    (overConstConfig.updatecoeffsEnbytes + overConstConfig.updatecoeffsHnbytes >
      overConstConfig.constmem) ∧
    (∃ msg, (solveGpuTrace overConstConfig).2 = Except.error msg) ∧
    GPUEvent.copyCoeffsToDevice ∉ (solveGpuTrace overConstConfig).1 ∧
    GPUEvent.kernelLaunch ∉ (solveGpuTrace overConstConfig).1 :=
  ⟨by decide, claim_C6_constmem_check overConstConfig (by decide)⟩

/-- Witness for the amended C1 at the concrete transmission-line-free
model plainModel: the filtered per-iteration source-update sequences of
the two backends coincide. -/
theorem claim_C1_witness :
    plainModel.ntransmission = 0 ∧
    (cpuIterationEvents plainModel 0).filter isSourceUpdate =
      (gpuIterationEvents plainModel 0).filter isSourceUpdate :=
  ⟨rfl, claim_C1_same_source_updates plainModel 0 rfl⟩

theorem multipoleStep_one (c : DispCoeffs1) (h corr e t : Int) :
    multipoleStep (coeffsOfOne c) h corr (e, [t]) =
      ((onepoleStep c h corr (e, t)).1, [(onepoleStep c h corr (e, t)).2]) := by
  unfold multipoleStep onepoleStep multipoleA onepoleA multipoleB onepoleB coeffsOfOne
  simp

/-- Claim C7 (spec-modelled): for a material set whose maximum pole
count is 1, the dedicated single-pole dispersive update path (phases A
and B) produces exactly the same electric-field and accumulator
trajectory over any number of iterations as the multi-pole path run
with a one-pole coefficient table, for every coefficient set, curl
input stream and correction stream. -/
theorem claim_C7_onepole_matches_multipole (c : DispCoeffs1) (hs corrs : Nat → Int)
    (n : Nat) (e t : Int) :
    multipoleTraj (coeffsOfOne c) hs corrs n (e, [t]) =
      ((onepoleTraj c hs corrs n (e, t)).1, [(onepoleTraj c hs corrs n (e, t)).2]) := by
  induction n with
  | zero => rfl
  | succ k ih =>
    unfold multipoleTraj onepoleTraj
    rw [ih]
    exact multipoleStep_one c (hs k) (corrs k) _ _
